import Mathlib

/-!
Verification development for the `untracker` stem-extraction tool
(`src/untracker.cpp`).  The C++ source is shallowly embedded: pure helper
functions become Lean functions, the stateful extraction loop becomes a
function from abstract engine behaviour to an event trace, machine `int`
values become `Int`/`Nat`, and `float`/`double` sample and position values
are modelled exactly by `ℚ` (the probe only compares against `0.0f` and
against `duration * 0.99`, both exact comparisons on the modelled values).
-/

namespace Untracker

/-- Mirror of `struct AudioOptions` (untracker.cpp lines 44-54) with the
member initialisers as Lean default values. -/
structure AudioOptions where
  sample_rate : Int := 44100
  channels : Int := 2
  interpolation_filter : Int := 4
  stereo_separation : Int := 100
  output_format : String := "wav"
  bit_depth : Int := 16
  opus_bitrate : Int := 128
  vorbis_quality : Int := 5
  deriving Repr, DecidableEq

/-- The default-constructed `AudioOptions{}`. -/
def defaultAudioOptions : AudioOptions := {}

/-! ## Decimal rendering of a nonnegative integer

`std::to_string` on a nonnegative `int` produces the decimal digit string.
Modelled with an explicit fuel argument so that it is structurally
recursive (fuel `n + 1` always suffices since the value shrinks by a
factor of 10 per step). -/

/-- Digits of `n` in base 10, most significant first, as characters;
`fuel` bounds the recursion depth. -/
def decDigitsAux (fuel : Nat) (n : Nat) : List Char :=
  match fuel with
  | 0 => []
  | fuel + 1 =>
    if n < 10 then [Char.ofNat (48 + n)]
    else decDigitsAux fuel (n / 10) ++ [Char.ofNat (48 + n % 10)]

/-- Decimal digit list of `n` (model of the characters of
`std::to_string(n)` for nonnegative `n`). -/
def natDigits (n : Nat) : List Char := decDigitsAux (n + 1) n

/-- Model of `std::to_string` on a nonnegative value. -/
def natToString (n : Nat) : String := String.mk (natDigits n)

/-! ## Filename sanitisation (untracker.cpp lines 369-389) -/

/-- Per-character replacement performed by the loop body of
`sanitize_filename` (lines 374-383): the nine special characters are
replaced by an underscore, then a space is replaced by an underscore. -/
def sanitize_char (c : Char) : Char :=
  let c1 :=
    if c = '<' ∨ c = '>' ∨ c = ':' ∨ c = '"' ∨ c = '/' ∨ c = '\\' ∨
       c = '|' ∨ c = '?' ∨ c = '*' then '_' else c
  if c1 = ' ' then '_' else c1

/-- Mirror of `StemExtractor::sanitize_filename` (lines 369-389): empty
input becomes `"unknown"`, otherwise every character is rewritten by
`sanitize_char`, and a result equal to `"."` or `".."` becomes `"_"`. -/
def sanitize_filename (name : String) : String :=
  if name = "" then "unknown"
  else
    let sanitized := String.mk (name.data.map sanitize_char)
    if sanitized = "." ∨ sanitized = ".." then "_" else sanitized

/-! ## Output naming (untracker.cpp lines 184-227) -/

/-- Mirror of lines 214-218: `"000" + std::to_string(idx + 1)` followed by
`substr(length - 3)`, i.e. the last three characters of the padded digit
string.  The `substr` is modelled as `List.drop` on the character data. -/
def instrument_number (idx : Nat) : String :=
  String.mk (("000".data ++ natDigits (idx + 1)).drop
    (("000".data ++ natDigits (idx + 1)).length - 3))

/-- Mirror of lines 186-195: the display name of voice `idx` is
`names[idx]` when that entry exists and is nonempty, otherwise the
synthesised positional fallback `sample_N` / `instrument_N` (N = idx+1).
Out-of-range access is modelled by `List.getD` with default `""`, which
agrees with the C++ short-circuit `idx < names.size() && ...`. -/
def resolve_name (names : List String) (idx : Nat) (using_samples : Bool) : String :=
  if names.getD idx "" ≠ "" then names.getD idx ""
  else (if using_samples then "sample_" else "instrument_") ++ natToString (idx + 1)

/-- Mirror of lines 220-227: the output filename for a resolved `name`. -/
def output_filename (dir : String) (idx : Nat) (name : String) (fmt : String) : String :=
  if name ≠ "" then
    dir ++ "/" ++ instrument_number idx ++ "-" ++ sanitize_filename name ++ "." ++ fmt
  else
    dir ++ "/" ++ instrument_number idx ++ "." ++ fmt

/-- The filename the extraction loop actually produces for voice `idx`:
name resolution (lines 186-195) followed by filename construction
(lines 220-227). -/
def extract_filename (dir : String) (names : List String) (idx : Nat)
    (using_samples : Bool) (fmt : String) : String :=
  output_filename dir idx (resolve_name names idx using_samples) fmt

/-! ## Output format selection (untracker.cpp lines 234-254) -/

/-- Container part of the `SF_INFO.format` tag. -/
inductive Container where
  | wav
  | flac
  | ogg
  deriving Repr, DecidableEq

/-- Codec part of the `SF_INFO.format` tag. -/
inductive Codec where
  | pcm16
  | pcm24
  | vorbis
  | opus
  deriving Repr, DecidableEq

/-- Mirror of the `sf_info.format` selection chain (lines 234-254): the
four recognised format strings pick their container/codec, and any other
string falls into the final `else` which defaults to WAV at the
configured bit depth (printing a warning, not failing). -/
def select_format (fmt : String) (bit_depth : Int) : Container × Codec :=
  if fmt = "wav" then (Container.wav, if bit_depth = 16 then Codec.pcm16 else Codec.pcm24)
  else if fmt = "flac" then (Container.flac, if bit_depth = 16 then Codec.pcm16 else Codec.pcm24)
  else if fmt = "vorbis" then (Container.ogg, Codec.vorbis)
  else if fmt = "opus" then (Container.ogg, Codec.opus)
  else (Container.wav, if bit_depth = 16 then Codec.pcm16 else Codec.pcm24)

/-! ## Voice enumeration (untracker.cpp lines 91-128) -/

/-- Model of `mod_type.find("MOD") != std::string::npos`: does the
character list contain `MOD` as a contiguous substring? -/
def hasSubstrMOD : List Char → Bool
  | [] => false
  | c :: rest =>
    ((c :: rest).take 3 = ['M', 'O', 'D'] : Bool) || hasSubstrMOD rest

/-- Mirror of the voice-count resolution (lines 91-128).  Returns the
resolved count together with the `using_samples` flag (`false` means the
voices are treated as instruments, `true` as samples).  Engine counts are
nonnegative, so they are modelled as `Nat`. -/
def voice_enumerate (num_instruments num_samples num_channels : Nat)
    (mod_type : String) : Nat × Bool :=
  if num_instruments = 0 then
    if num_samples > 0 then (num_samples, true)
    else if hasSubstrMOD mod_type.data then (31, true)
    else (num_channels, false)
  else (num_instruments, false)

/-! ## Command-line parsing (untracker.cpp lines 393-497) -/

/-- Result of `parseArguments`: the resolved options plus the collected
input/output paths, an error (a thrown `std::runtime_error` or a failed
`std::stoi`), or the `exit(0)` taken by `--help`. -/
inductive ParseResult where
  | ok (opts : AudioOptions) (input_file output_dir : String)
  | err (msg : String)
  | helpExit
  deriving Repr, DecidableEq

/-- Value of a decimal digit list under left-to-right accumulation. -/
def digitsToNat (l : List Char) : Nat :=
  l.foldl (fun acc c => acc * 10 + (c.toNat - 48)) 0

/-- Model of `std::stoi` in base 10: an optional leading minus sign
followed by at least one decimal digit; trailing non-digit characters are
ignored; no digit at all means the conversion throws, modelled as
`none`. -/
def stoiModel (s : String) : Option Int :=
  match s.data with
  | '-' :: rest =>
    let ds := rest.takeWhile Char.isDigit
    if ds = [] then none else some (-(digitsToNat ds : Int))
  | l =>
    let ds := l.takeWhile Char.isDigit
    if ds = [] then none else some (digitsToNat ds : Int)

/-- Mirror of the argument loop (lines 398-489).  Each recognised flag
that has a following value consumes it; a recognised flag in final
position (no following value) matches no branch and is skipped, as is any
unrecognised argument.  A failed `std::stoi` propagates as an error like
the uncaught `std::invalid_argument`. -/
def parseArgs : List String → AudioOptions → String → String → ParseResult
  | [], opts, input_file, output_dir => ParseResult.ok opts input_file output_dir
  | "-i" :: v :: r, opts, _, output_dir => parseArgs r opts v output_dir
  | "-o" :: v :: r, opts, input_file, _ => parseArgs r opts input_file v
  | "--sample-rate" :: v :: r, opts, input_file, output_dir =>
    (match stoiModel v with
    | none => ParseResult.err "stoi"
    | some n =>
      if n < 8000 ∨ n > 192000 then ParseResult.err "Invalid sample rate"
      else parseArgs r { opts with sample_rate := n } input_file output_dir)
  | "--channels" :: v :: r, opts, input_file, output_dir =>
    (match stoiModel v with
    | none => ParseResult.err "stoi"
    | some n =>
      if n ≠ 1 ∧ n ≠ 2 ∧ n ≠ 4 then ParseResult.err "Invalid channels"
      else parseArgs r { opts with channels := n } input_file output_dir)
  | "--resample" :: v :: r, opts, input_file, output_dir =>
    parseArgs r
      { opts with interpolation_filter :=
          if v = "linear" then 2
          else if v = "cubic" then 4
          else if v = "sinc" ∨ v = "8tap" then 8
          else if v = "nearest" then 1
          else 8 } input_file output_dir
  | "--format" :: v :: r, opts, input_file, output_dir =>
    parseArgs r { opts with output_format := v } input_file output_dir
  | "--bit-depth" :: v :: r, opts, input_file, output_dir =>
    (match stoiModel v with
    | none => ParseResult.err "stoi"
    | some n =>
      if n ≠ 16 ∧ n ≠ 24 then ParseResult.err "Invalid bit depth"
      else parseArgs r { opts with bit_depth := n } input_file output_dir)
  | "--opus-bitrate" :: v :: r, opts, input_file, output_dir =>
    (match stoiModel v with
    | none => ParseResult.err "stoi"
    | some n =>
      if n < 16 ∨ n > 512 then ParseResult.err "Invalid opus bitrate"
      else parseArgs r { opts with opus_bitrate := n } input_file output_dir)
  | "--vorbis-quality" :: v :: r, opts, input_file, output_dir =>
    (match stoiModel v with
    | none => ParseResult.err "stoi"
    | some n =>
      if n < 0 ∨ n > 10 then ParseResult.err "Invalid vorbis quality"
      else parseArgs r { opts with vorbis_quality := n } input_file output_dir)
  | "--stereo-separation" :: v :: r, opts, input_file, output_dir =>
    (match stoiModel v with
    | none => ParseResult.err "stoi"
    | some n =>
      if n < 0 ∨ n > 200 then ParseResult.err "Invalid stereo separation"
      else parseArgs r { opts with stereo_separation := n } input_file output_dir)
  | "--help" :: _, _, _, _ => ParseResult.helpExit
  | _ :: rest, opts, input_file, output_dir => parseArgs rest opts input_file output_dir

/-- Mirror of `parseArguments` (lines 393-497): run the flag loop, then
apply the post-loop opus rule of lines 491-494 (`output_format == "opus"
&& sample_rate == 44100` forces `sample_rate = 48000`). -/
def parseArguments (args : List String) : ParseResult :=
  match parseArgs args defaultAudioOptions "" "" with
  | ParseResult.ok opts input_file output_dir =>
    ParseResult.ok
      (if opts.output_format = "opus" ∧ opts.sample_rate = 44100 then
        { opts with sample_rate := 48000 }
      else opts) input_file output_dir
  | r => r

/-- Resolved sample rate of a successful parse. -/
def resultSampleRate : ParseResult → Option Int
  | ParseResult.ok opts _ _ => some opts.sample_rate
  | _ => none

/-! ## Silence probe (untracker.cpp lines 256-296)

The playback engine is an external collaborator; its behaviour during one
probe is modelled as the sequence of pull results the probe loop would
observe: for each `read` call, the frame count returned, the sample values
occupying the first `samples_read * channels` slots of the check buffer,
and the playback position reported after the read.  An exhausted list is
read as the engine returning zero frames (end of stream). -/

/-- One pull observed by the probe loop. -/
structure ProbeBlock where
  samplesRead : Nat
  samples : List ℚ
  posAfter : ℚ
  deriving Repr, DecidableEq

/-- Mirror of the scan at lines 280-285: does the checked portion of the
buffer contain a sample different from exact `0.0f`? -/
def hasNonzeroSample (buf : List ℚ) : Bool :=
  buf.any (fun x => x ≠ 0)

/-- Mirror of the probe loop (lines 263-296): pull a block; stop silent on
a zero-frame read; stop audible when the scan finds a nonzero sample; stop
silent when the position has reached `duration * 0.99`; otherwise keep
pulling. -/
def probeHasAudio : List ProbeBlock → ℚ → Bool
  | [], _ => false
  | b :: rest, duration =>
    if b.samplesRead = 0 then false
    else if hasNonzeroSample b.samples then true
    else if b.posAfter ≥ duration * (99 / 100) then false
    else probeHasAudio rest duration

/-! ## Per-stem processing and the extraction loop as an event trace
(untracker.cpp lines 156-365)

The observable interactions of `extractStems` with the engine, the
encoding library, the filesystem and stdout are recorded as an event
trace.  Engine behaviour per stem (probe pulls, sink-open success, render
pulls with the frame counts `sf_writef_float` reports) is an oracle
input. -/

/-- One observable action of the extraction loop. -/
inductive Event where
  | setMute (idx : Nat) (muted : Bool)
  | setInterp (v : Int)
  | setPos (t : ℚ)
  | sfOpen (path : String) (ok : Bool)
  | sfWrite (requested written : Nat)
  | sfClose
  | removeFile (path : String)
  | printExtracted (path : String)
  | printSkipSilent (path : String)
  deriving Repr, DecidableEq

/-- One pull observed by the render loop: the frame count the engine
returned and the frame count `sf_writef_float` reported written. -/
structure RenderBlock where
  samplesRead : Nat
  framesWritten : Nat
  deriving Repr, DecidableEq

/-- Oracle describing how the external collaborators behave while one stem
is processed. -/
structure StemBehavior where
  probe : List ProbeBlock
  openOk : Bool
  render : List RenderBlock
  deriving Repr, DecidableEq

/-- Mirror of the render loop (lines 329-355): pull a block; a zero-frame
read ends the loop; a short write closes the sink, removes the file and
breaks; otherwise the written block is recorded and the loop continues. -/
def renderLoop (path : String) : List RenderBlock → List Event
  | [] => []
  | b :: rest =>
    if b.samplesRead = 0 then []
    else if b.framesWritten ≠ b.samplesRead then
      [Event.sfWrite b.samplesRead b.framesWritten, Event.sfClose, Event.removeFile path]
    else Event.sfWrite b.samplesRead b.framesWritten :: renderLoop path rest

/-- Trace of one iteration of the enumeration loop (lines 184-365) for the
voice at `idx`: unmute the voice, reset position, probe at interpolation
filter 1, restore the configured filter, then either skip (silent or
failed open) or render; every exit path re-mutes the voice.  Note that
after a short write the unconditional `sf_close` and the
`"Extracted stem"` message at lines 357-358 still execute. -/
def processStem (opts : AudioOptions) (dir : String) (names : List String)
    (using_samples : Bool) (idx : Nat) (beh : StemBehavior) (duration : ℚ) :
    List Event :=
  let path := extract_filename dir names idx using_samples opts.output_format
  [Event.setMute idx false, Event.setPos 0, Event.setInterp 1, Event.setPos 0] ++
  [Event.setInterp opts.interpolation_filter] ++
  (if probeHasAudio beh.probe duration = false then
    [Event.printSkipSilent path, Event.setMute idx true]
  else
    Event.setPos 0 ::
    (if beh.openOk = false then
      [Event.sfOpen path false, Event.setMute idx true]
    else
      Event.sfOpen path true ::
        (renderLoop path beh.render ++
         [Event.sfClose, Event.printExtracted path, Event.setMute idx true])))

/-- Trace of `extractStems` after voice enumeration (lines 156-365): the
initial mute-all pass over `[0, numVoices)`, then the per-voice iterations
in order.  `behs` is the engine/sink oracle for each voice. -/
def extractStems (opts : AudioOptions) (numVoices : Nat) (names : List String)
    (using_samples : Bool) (dir : String) (behs : Nat → StemBehavior)
    (duration : ℚ) : List Event :=
  ((List.range numVoices).map (fun i => Event.setMute i true)) ++
  ((List.range numVoices).map
    (fun idx => processStem opts dir names using_samples idx (behs idx) duration)).flatten

/-- Effect of one event on the engine's per-voice mute map. -/
def muteStep (st : Nat → Bool) : Event → (Nat → Bool)
  | Event.setMute i m => fun j => if j = i then m else st j
  | _ => st

/-- Mute state reached by replaying the mute commands of a trace from the
initial state `init` (the engine starts with every voice unmuted). -/
def muteStateAfter (tr : List Event) (init : Nat → Bool) : Nat → Bool :=
  tr.foldl muteStep init

/-- The interpolation-filter value carried by an event, if any. -/
def interpOfEvent : Event → Option Int
  | Event.setInterp v => some v
  | _ => none

/-- The interpolation-filter values set by a trace, in order. -/
def interpSets (tr : List Event) : List Int :=
  tr.filterMap interpOfEvent

/-- Whether an event is an `sf_close` call. -/
def isCloseEvent : Event → Bool
  | Event.sfClose => true
  | _ => false

/-- Number of `sf_close` calls recorded in a trace. -/
def closeCount (tr : List Event) : Nat :=
  tr.countP isCloseEvent

/-- Specification-level rendering of the three-digit index field, written
from the spec words: the decimal value truncated to its last three digits
(`n % 1000`), zero-padded to exactly three digit characters. -/
def specNNN (n : Nat) : String :=
  String.mk [Char.ofNat (48 + n / 100 % 10), Char.ofNat (48 + n / 10 % 10),
    Char.ofNat (48 + n % 10)]


/-- Engine/sink behaviour in which the probe finds audio, the sink opens,
and the first write is short (5 of 8 frames written). -/
def shortWriteBehavior : StemBehavior :=
  ⟨[⟨4, [0, 1], 0⟩], true, [⟨8, 5⟩]⟩

/-- The per-stem trace produced under `shortWriteBehavior`. -/
def shortWriteTrace : List Event :=
  processStem defaultAudioOptions "out" ["Bass"] false 0 shortWriteBehavior 10

/-! ## Helper lemmas -/

theorem decDigitsAux_fuel (f1 : Nat) :
    ∀ f2 n, n < f1 → n < f2 → decDigitsAux f1 n = decDigitsAux f2 n := by
  induction f1 with
  | zero => intro f2 n h1 h2; omega
  | succ f ih =>
    intro f2 n h1 h2
    cases f2 with
    | zero => omega
    | succ g =>
      by_cases hn : n < 10
      · simp [decDigitsAux, hn]
      · have hd : n / 10 < n := Nat.div_lt_self (by omega) (by omega)
        simp only [decDigitsAux, if_neg hn]
        rw [ih g (n / 10) (by omega) (by omega)]

theorem natDigits_small (n : Nat) (h : n < 10) :
    natDigits n = [Char.ofNat (48 + n)] := by
  simp [natDigits, decDigitsAux, h]

theorem natDigits_step (n : Nat) (h : 10 ≤ n) :
    natDigits n = natDigits (n / 10) ++ [Char.ofNat (48 + n % 10)] := by
  show decDigitsAux (n + 1) n = _
  have hd : n / 10 < n := Nat.div_lt_self (by omega) (by omega)
  simp only [decDigitsAux, if_neg (by omega : ¬ n < 10)]
  rw [decDigitsAux_fuel n (n / 10 + 1) (n / 10) (by omega) (by omega)]
  rfl

theorem natDigits_ne_nil (n : Nat) : natDigits n ≠ [] := by
  unfold natDigits decDigitsAux
  by_cases h : n < 10 <;> simp [h]

theorem drop_last_three (L : List Char) (a b c : Char) :
    (L ++ [a, b, c]).drop ((L ++ [a, b, c]).length - 3) = [a, b, c] := by
  have h : (L ++ [a, b, c]).length - 3 = L.length := by simp
  rw [h, List.drop_left]

theorem instrument_number_eq_specNNN (idx : Nat) :
    instrument_number idx = specNNN (idx + 1) := by
  have key : ∀ n : Nat,
      (("000".data ++ natDigits n).drop (("000".data ++ natDigits n).length - 3)) =
        [Char.ofNat (48 + n / 100 % 10), Char.ofNat (48 + n / 10 % 10),
         Char.ofNat (48 + n % 10)] := by
    intro n
    have hz : "000".data = ['0', '0', '0'] := rfl
    by_cases h1 : n < 10
    · rw [natDigits_small n h1, hz]
      have e1 : n / 100 % 10 = 0 := by omega
      have e2 : n / 10 % 10 = 0 := by omega
      have e3 : n % 10 = n := by omega
      rw [e1, e2, e3]
      simp
    · by_cases h2 : n < 100
      · rw [natDigits_step n (by omega), natDigits_small (n / 10) (by omega), hz]
        have e1 : n / 100 % 10 = 0 := by omega
        have e2 : n / 10 % 10 = n / 10 := by omega
        rw [e1, e2]
        simp
      · by_cases h3 : n < 1000
        · rw [natDigits_step n (by omega), natDigits_step (n / 10) (by omega),
            natDigits_small (n / 10 / 10) (by omega), hz]
          have e1 : n / 10 / 10 = n / 100 := by omega
          have e2 : n / 100 % 10 = n / 100 := by omega
          rw [e1, e2]
          simp
        · rw [natDigits_step n (by omega), natDigits_step (n / 10) (by omega)]
          have e1 : n / 10 / 10 = n / 100 := by omega
          rw [e1, natDigits_step (n / 100) (by omega), hz]
          have shape : (['0', '0', '0'] : List Char) ++
              (((natDigits (n / 100 / 10) ++ [Char.ofNat (48 + n / 100 % 10)]) ++
                [Char.ofNat (48 + n / 10 % 10)]) ++ [Char.ofNat (48 + n % 10)])
              = (['0', '0', '0'] ++ natDigits (n / 100 / 10)) ++
                [Char.ofNat (48 + n / 100 % 10), Char.ofNat (48 + n / 10 % 10),
                 Char.ofNat (48 + n % 10)] := by
            simp
          rw [shape, drop_last_three]
  unfold instrument_number specNNN
  rw [key (idx + 1)]

theorem resolve_name_ne_empty (names : List String) (idx : Nat) (us : Bool) :
    resolve_name names idx us ≠ "" := by
  unfold resolve_name
  split
  · assumption
  · intro habs
    have h2 := congrArg String.data habs
    rw [String.data_append] at h2
    cases us <;> simp [natToString, natDigits_ne_nil] at h2

/-! ## Claim theorems: configuration, enumeration, naming -/

/-- C8: filename sanitisation replaces each of the nine special characters
and the space with an underscore, maps a result of `"."` or `".."` to
`"_"`, maps the empty input to `"unknown"`, and in particular sends
`"Lead Guitar/Solo"` to `"Lead_Guitar_Solo"`, `""` to `"unknown"` and
`".."` to `"_"`. -/
theorem claim_C8_sanitize :
    (∀ c, sanitize_char c =
      if c ∈ ['<', '>', ':', '"', '/', '\\', '|', '?', '*', ' '] then '_' else c) ∧
    (∀ s : String, s ≠ "" → sanitize_filename s =
      if String.mk (s.data.map sanitize_char) = "." ∨
         String.mk (s.data.map sanitize_char) = ".." then "_"
      else String.mk (s.data.map sanitize_char)) ∧
    sanitize_filename "" = "unknown" ∧
    sanitize_filename "Lead Guitar/Solo" = "Lead_Guitar_Solo" ∧
    sanitize_filename ".." = "_" ∧
    sanitize_filename "." = "_" := by
  refine ⟨fun c => ?_, fun s hs => ?_, by decide, by decide, by decide, by decide⟩
  · by_cases h : c = '<' ∨ c = '>' ∨ c = ':' ∨ c = '"' ∨ c = '/' ∨ c = '\\' ∨
        c = '|' ∨ c = '?' ∨ c = '*'
    · have h1 : sanitize_char c = '_' := by simp [sanitize_char, h]
      rw [h1, if_pos]
      simp only [List.mem_cons, List.not_mem_nil, or_false]
      tauto
    · by_cases hsp : c = ' '
      · subst hsp
        simp [sanitize_char]
      · have h1 : sanitize_char c = c := by simp [sanitize_char, h, hsp]
        rw [h1, if_neg]
        simp only [List.mem_cons, List.not_mem_nil, or_false]
        tauto
  · simp only [sanitize_filename, if_neg hs]

/-- Witness for C8 at a concrete nonempty input. -/
theorem claim_C8_witness : sanitize_filename "a b" = "a_b" := by
  have h := claim_C8_sanitize.2.1 "a b" (by decide)
  rw [h]
  decide

/-- C7: the voice enumerator's fallback chain. -/
theorem claim_C7_enumeration (ni ns nc : Nat) (ty : String) :
    (0 < ni → voice_enumerate ni ns nc ty = (ni, false)) ∧
    (ni = 0 → 0 < ns → voice_enumerate ni ns nc ty = (ns, true)) ∧
    (ni = 0 → ns = 0 → hasSubstrMOD ty.data = true →
      voice_enumerate ni ns nc ty = (31, true)) ∧
    (ni = 0 → ns = 0 → hasSubstrMOD ty.data = false →
      voice_enumerate ni ns nc ty = (nc, false)) ∧
    ((0 < ni) ∨ (ni = 0 ∧ 0 < ns) ∨
      (ni = 0 ∧ ns = 0 ∧ hasSubstrMOD ty.data = true) ∨
      (ni = 0 ∧ ns = 0 ∧ hasSubstrMOD ty.data = false)) ∧
    (¬((0 < ni) ∧ (ni = 0 ∧ 0 < ns))) ∧
    (¬((0 < ni) ∧ (ni = 0 ∧ ns = 0 ∧ hasSubstrMOD ty.data = true))) ∧
    (¬((0 < ni) ∧ (ni = 0 ∧ ns = 0 ∧ hasSubstrMOD ty.data = false))) ∧
    (¬((ni = 0 ∧ 0 < ns) ∧ (ni = 0 ∧ ns = 0 ∧ hasSubstrMOD ty.data = true))) ∧
    (¬((ni = 0 ∧ 0 < ns) ∧ (ni = 0 ∧ ns = 0 ∧ hasSubstrMOD ty.data = false))) ∧
    (¬((ni = 0 ∧ ns = 0 ∧ hasSubstrMOD ty.data = true) ∧
       (ni = 0 ∧ ns = 0 ∧ hasSubstrMOD ty.data = false))) := by
  refine ⟨fun h => by simp [voice_enumerate, Nat.pos_iff_ne_zero.mp h],
    fun h h2 => by simp [voice_enumerate, h, h2],
    fun h h2 h3 => by simp [voice_enumerate, h, h2, h3],
    fun h h2 h3 => by simp [voice_enumerate, h, h2, h3], ?_, ?_, ?_, ?_, ?_, ?_, ?_⟩ <;>
    rcases Bool.eq_false_or_eq_true (hasSubstrMOD ty.data) with hb | hb <;>
    simp [hb] <;> omega

/-- Witness for C7: one concrete module per tier. -/
theorem claim_C7_witness :
    voice_enumerate 5 0 2 "Impulse Tracker" = (5, false) ∧
    voice_enumerate 0 12 4 "FastTracker XM" = (12, true) ∧
    voice_enumerate 0 0 4 "ProTracker MOD" = (31, true) ∧
    voice_enumerate 0 0 6 "S3M" = (6, false) :=
  ⟨(claim_C7_enumeration 5 0 2 "Impulse Tracker").1 (by decide),
   (claim_C7_enumeration 0 12 4 "FastTracker XM").2.1 rfl (by decide),
   (claim_C7_enumeration 0 0 4 "ProTracker MOD").2.2.1 rfl rfl (by decide),
   (claim_C7_enumeration 0 0 6 "S3M").2.2.2.1 rfl rfl (by decide)⟩

/-- C10: an unrecognised output format string falls back to the WAV
container at the configured bit depth while the file extension keeps the
format string verbatim. -/
theorem claim_C10_unknown_format (fmt : String) (bd : Int)
    (h : fmt ≠ "wav" ∧ fmt ≠ "flac" ∧ fmt ≠ "vorbis" ∧ fmt ≠ "opus") :
    select_format fmt bd =
      (Container.wav, if bd = 16 then Codec.pcm16 else Codec.pcm24) ∧
    ∀ dir names idx us,
      extract_filename dir names idx us fmt =
        dir ++ "/" ++ instrument_number idx ++ "-" ++
          sanitize_filename (resolve_name names idx us) ++ "." ++ fmt := by
  obtain ⟨h1, h2, h3, h4⟩ := h
  refine ⟨by simp [select_format, h1, h2, h3, h4], fun dir names idx us => ?_⟩
  unfold extract_filename output_filename
  rw [if_pos (resolve_name_ne_empty names idx us)]

/-- Witness for C10 at format string `mp3`. -/
theorem claim_C10_witness :
    select_format "mp3" 24 = (Container.wav, Codec.pcm24) ∧
    extract_filename "out" ["Bass"] 0 true "mp3" =
      "out" ++ "/" ++ instrument_number 0 ++ "-" ++
        sanitize_filename (resolve_name ["Bass"] 0 true) ++ "." ++ "mp3" := by
  have h := claim_C10_unknown_format "mp3" 24 (by decide)
  exact ⟨by rw [h.1]; decide, h.2 "out" ["Bass"] 0 true⟩

/-- C2: the opus sample-rate rule is keyed on the value 44100, not on
whether the user passed `--sample-rate`; an explicitly passed 44100 is
overridden to 48000, other explicit values are preserved, and the default
with opus becomes 48000. -/
theorem claim_C2_opus_sample_rate :
    resultSampleRate (parseArguments
      ["-i", "m.mod", "-o", "out", "--format", "opus", "--sample-rate", "44100"]) =
        some 48000 ∧
    resultSampleRate (parseArguments ["-i", "m.mod", "-o", "out", "--format", "opus"]) =
        some 48000 ∧
    resultSampleRate (parseArguments
      ["-i", "m.mod", "-o", "out", "--format", "opus", "--sample-rate", "48000"]) =
        some 48000 ∧
    resultSampleRate (parseArguments
      ["-i", "m.mod", "-o", "out", "--format", "opus", "--sample-rate", "22050"]) =
        some 22050 ∧
    resultSampleRate (parseArguments ["-i", "m.mod", "-o", "out"]) = some 44100 := by
  exact ⟨by decide, by decide, by decide, by decide, by decide⟩

/-- C6 counterexample: a voice with empty display name gets the
synthesised `sample_1` segment, not the claim's `NNN-sanitize("")` form and
not the bare `NNN.ext` form. -/
theorem claim_C6_counterexample :
    extract_filename "out" [""] 0 true "wav" = "out/001-sample_1.wav" ∧
    ("out/001-sample_1.wav" : String) ≠
      "out" ++ "/" ++ "001" ++ "-" ++ sanitize_filename "" ++ "." ++ "wav" ∧
    ("out/001-sample_1.wav" : String) ≠ "out" ++ "/" ++ "001" ++ "." ++ "wav" := by
  exact ⟨by decide, by decide, by decide⟩

/-- C6 amended: the output name is always
`NNN-sanitize(resolvedName).ext`. -/
theorem claim_C6_output_naming (dir : String) (names : List String) (idx : Nat)
    (us : Bool) (fmt : String) :
    resolve_name names idx us ≠ "" ∧
    extract_filename dir names idx us fmt =
      dir ++ "/" ++ specNNN (idx + 1) ++ "-" ++
        sanitize_filename (resolve_name names idx us) ++ "." ++ fmt := by
  refine ⟨resolve_name_ne_empty names idx us, ?_⟩
  unfold extract_filename output_filename
  rw [if_pos (resolve_name_ne_empty names idx us), instrument_number_eq_specNNN]

/-! ## Trace lemmas: mute state -/
theorem muteStateAfter_append (t1 t2 : List Event) (st : Nat → Bool) :
    muteStateAfter (t1 ++ t2) st = muteStateAfter t2 (muteStateAfter t1 st) := by
  simp [muteStateAfter, List.foldl_append]

theorem foldl_muteStep_renderLoop (path : String) (blocks : List RenderBlock)
    (st : Nat → Bool) :
    (renderLoop path blocks).foldl muteStep st = st := by
  induction blocks with
  | nil => rfl
  | cons b rest ih =>
    by_cases h0 : b.samplesRead = 0
    · simp [renderLoop, h0, muteStep]
    · by_cases h1 : b.framesWritten ≠ b.samplesRead
      · simp [renderLoop, h0, h1, muteStep]
      · simp only [renderLoop, if_neg h0, if_neg h1, List.foldl_cons, muteStep]
        exact ih

theorem muteStateAfter_processStem (opts : AudioOptions) (dir : String)
    (names : List String) (us : Bool) (idx : Nat) (beh : StemBehavior) (dur : ℚ)
    (st : Nat → Bool) :
    muteStateAfter (processStem opts dir names us idx beh dur) st =
      fun j => if j = idx then true else st j := by
  unfold processStem muteStateAfter
  by_cases hp : probeHasAudio beh.probe dur = false
  · simp [hp, muteStep]
    funext j; by_cases hj : j = idx <;> simp [hj]
  · by_cases ho : beh.openOk = false
    · simp [hp, ho, muteStep]
      funext j; by_cases hj : j = idx <;> simp [hj]
    · simp [hp, ho, List.foldl_append, foldl_muteStep_renderLoop, muteStep]
      funext j; by_cases hj : j = idx <;> simp [hj]

theorem muteStateAfter_muteAll (numVoices : Nat) (init : Nat → Bool) :
    muteStateAfter ((List.range numVoices).map (fun i => Event.setMute i true)) init =
      fun j => if j < numVoices then true else init j := by
  induction numVoices with
  | zero => funext j; simp [muteStateAfter]
  | succ n ih =>
    rw [List.range_succ, List.map_append, muteStateAfter_append, ih]
    funext j
    simp only [muteStateAfter, List.map_cons, List.map_nil, List.foldl_cons,
      List.foldl_nil, muteStep]
    by_cases hj : j = n
    · simp [hj]
    · by_cases hj2 : j < n <;> simp [hj, hj2] <;> omega

theorem muteStateAfter_stems (opts : AudioOptions) (dir : String)
    (names : List String) (us : Bool) (behs : Nat → StemBehavior) (dur : ℚ)
    (l : List Nat) (st : Nat → Bool) :
    muteStateAfter
      ((l.map (fun idx => processStem opts dir names us idx (behs idx) dur)).flatten)
      st = fun j => if j ∈ l then true else st j := by
  induction l generalizing st with
  | nil => funext j; simp [muteStateAfter]
  | cons a rest ih =>
    simp only [List.map_cons, List.flatten_cons]
    rw [muteStateAfter_append, muteStateAfter_processStem, ih]
    funext j
    by_cases h1 : j ∈ rest
    · simp [h1]
    · by_cases h2 : j = a <;> simp [h1, h2]

/-! ## Claim theorems: mute restore, probe interpolation, write errors -/
theorem filterMap_interpOf_renderLoop (path : String) (blocks : List RenderBlock) :
    (renderLoop path blocks).filterMap interpOfEvent = [] := by
  induction blocks with
  | nil => rfl
  | cons b rest ih =>
    by_cases h0 : b.samplesRead = 0
    · simp [renderLoop, h0]
    · by_cases h1 : b.framesWritten ≠ b.samplesRead
      · simp [renderLoop, h0, h1, interpOfEvent]
      · simp only [renderLoop, if_neg h0, if_neg h1, List.filterMap_cons, interpOfEvent]
        exact ih

/-- C9: during each per-stem iteration the engine's interpolation filter is
set to 1 (nearest neighbour) for the probe and then set back to the
configured `interpolation_filter`, and these are the only two filter
writes, whatever the probe verdict, sink-open result and render behaviour
are; the options record itself is a pure input that the trace semantics
never alters. -/
theorem claim_C9_interpolation_restore (opts : AudioOptions) (dir : String)
    (names : List String) (us : Bool) (idx : Nat) (beh : StemBehavior) (dur : ℚ) :
    interpSets (processStem opts dir names us idx beh dur) =
      [1, opts.interpolation_filter] := by
  unfold processStem interpSets
  by_cases hp : probeHasAudio beh.probe dur = false
  · simp [hp, interpOfEvent]
  · by_cases ho : beh.openOk = false
    · simp [hp, ho, interpOfEvent]
    · simp [hp, ho, interpOfEvent, List.filterMap_append, filterMap_interpOf_renderLoop]

/-- C1 counterexample: a complete, fully successful run of the extraction
loop on a one-voice module (audible, sink opens, all writes complete)
leaves voice 0 muted; no restore-all pass exists in the trace semantics,
so the engine does not end with every voice unmuted. -/
theorem claim_C1_counterexample :
    muteStateAfter
      (extractStems defaultAudioOptions 1 ["Bass"] false "out"
        (fun _ => ⟨[⟨4, [1], 0⟩], true, [⟨4, 4⟩]⟩) 10)
      (fun _ => false) 0 = true := by
  decide

/-- C1 amended: the loop performs no final restore-all; instead every
iteration re-mutes its own voice on each exit path, so after
`extractStems` completes every voice index in `[0, numVoices)` is muted
(not unmuted), whatever the per-stem behaviours were. -/
theorem claim_C1_final_mute_state (opts : AudioOptions) (numVoices : Nat)
    (names : List String) (us : Bool) (dir : String) (behs : Nat → StemBehavior)
    (dur : ℚ) (init : Nat → Bool) (i : Nat) (h : i < numVoices) :
    muteStateAfter (extractStems opts numVoices names us dir behs dur) init i = true := by
  unfold extractStems
  rw [muteStateAfter_append, muteStateAfter_muteAll, muteStateAfter_stems]
  simp [List.mem_range, h]

/-- Witness for C1's amended statement on a concrete two-voice run with one
silent and one audible voice. -/
theorem claim_C1_witness :
    muteStateAfter
      (extractStems defaultAudioOptions 2 ["Lead", ""] true "out"
        (fun i => if i = 0 then ⟨[⟨4, [0, 0], 10⟩], true, []⟩
                  else ⟨[⟨4, [0, 1], 0⟩], true, [⟨4, 4⟩, ⟨0, 0⟩]⟩) 10)
      (fun _ => false) 1 = true :=
  claim_C1_final_mute_state defaultAudioOptions 2 ["Lead", ""] true "out"
    (fun i => if i = 0 then ⟨[⟨4, [0, 0], 10⟩], true, []⟩
              else ⟨[⟨4, [0, 1], 0⟩], true, [⟨4, 4⟩, ⟨0, 0⟩]⟩) 10
    (fun _ => false) 1 (by decide)


/-- C4: on a short write the code does close the sink and remove the
partial file, but it then still prints the `Extracted stem` success line
for that stem (lines 357-358 run unconditionally after the loop), i.e. the
stem is reported as extracted rather than skipped. -/
theorem claim_C4_short_write_report :
    Event.removeFile "out/001-Bass.wav" ∈ shortWriteTrace ∧
    Event.sfClose ∈ shortWriteTrace ∧
    Event.printExtracted "out/001-Bass.wav" ∈ shortWriteTrace := by
  exact ⟨by decide, by decide, by decide⟩

/-- C5: on the short-write path the sink is closed twice (once in the
error branch at line 351, once unconditionally at line 357), while a
normal completion closes it exactly once. -/
theorem claim_C5_double_close :
    closeCount shortWriteTrace = 2 ∧
    closeCount
      (processStem defaultAudioOptions "out" ["Bass"] false 0
        ⟨[⟨4, [0, 1], 0⟩], true, [⟨4, 4⟩]⟩ 10) = 1 := by
  exact ⟨by decide, by decide⟩

/-! ## Probe characterisation -/
theorem hasNonzeroSample_iff (buf : List ℚ) :
    hasNonzeroSample buf = true ↔ ∃ x ∈ buf, x ≠ 0 := by
  simp [hasNonzeroSample]

theorem probeHasAudio_iff (blocks : List ProbeBlock) (dur : ℚ) :
    probeHasAudio blocks dur = true ↔
      ∃ pre b post, blocks = pre ++ b :: post ∧
        (∀ p ∈ pre, p.samplesRead ≠ 0 ∧ hasNonzeroSample p.samples = false ∧
          p.posAfter < dur * (99 / 100)) ∧
        b.samplesRead ≠ 0 ∧ hasNonzeroSample b.samples = true := by
  induction blocks with
  | nil =>
    simp only [probeHasAudio, Bool.false_eq_true, false_iff]
    rintro ⟨pre, b, post, habs, -⟩
    cases pre <;> simp at habs
  | cons b0 rest ih =>
    by_cases h0 : b0.samplesRead = 0
    · have hstep : probeHasAudio (b0 :: rest) dur = false := by
        simp [probeHasAudio, h0]
      rw [hstep]
      simp only [Bool.false_eq_true, false_iff]
      rintro ⟨pre, b, post, heq, hpre, hb1, hb2⟩
      cases pre with
      | nil =>
        simp only [List.nil_append, List.cons.injEq] at heq
        exact hb1 (heq.1 ▸ h0)
      | cons q pre2 =>
        simp only [List.cons_append, List.cons.injEq] at heq
        exact (hpre q (List.mem_cons_self q pre2)).1 (heq.1 ▸ h0)
    · by_cases h1 : hasNonzeroSample b0.samples = true
      · have hstep : probeHasAudio (b0 :: rest) dur = true := by
          simp [probeHasAudio, h0, h1]
        rw [hstep]
        simp only [true_iff]
        exact ⟨[], b0, rest, rfl, by simp, h0, h1⟩
      · by_cases h2 : b0.posAfter ≥ dur * (99 / 100)
        · have hstep : probeHasAudio (b0 :: rest) dur = false := by
            simp [probeHasAudio, h0, h1, h2]
          rw [hstep]
          simp only [Bool.false_eq_true, false_iff]
          rintro ⟨pre, b, post, heq, hpre, hb1, hb2⟩
          cases pre with
          | nil =>
            simp only [List.nil_append, List.cons.injEq] at heq
            exact h1 (heq.1 ▸ hb2)
          | cons q pre2 =>
            simp only [List.cons_append, List.cons.injEq] at heq
            have hq := (hpre q (List.mem_cons_self q pre2)).2.2
            rw [← heq.1] at hq
            exact absurd hq (not_lt.mpr h2)
        · have hstep : probeHasAudio (b0 :: rest) dur = probeHasAudio rest dur := by
            simp [probeHasAudio, h0, h1, h2]
          rw [hstep, ih]
          constructor
          · rintro ⟨pre, b, post, heq, hpre, hb⟩
            refine ⟨b0 :: pre, b, post, by rw [heq]; rfl, ?_, hb⟩
            intro p hp
            rcases List.mem_cons.mp hp with hpa | hpb
            · subst hpa
              exact ⟨h0, by simpa using h1, not_le.mp h2⟩
            · exact hpre p hpb
          · rintro ⟨pre, b, post, heq, hpre, hb⟩
            cases pre with
            | nil =>
              simp only [List.nil_append, List.cons.injEq] at heq
              exact absurd (heq.1 ▸ hb.2) h1
            | cons q pre2 =>
              simp only [List.cons_append, List.cons.injEq] at heq
              exact ⟨pre2, b, post, heq.2,
                fun p hp => hpre p (List.mem_cons_of_mem q hp), hb⟩


/-! ## Claim theorems: silence probe -/
/-- C3 counterexample: no positive epsilon matches the probe's frame
check — the scan at line 281 compares against exact zero, so a buffer
whose only sample is nonzero but of magnitude not exceeding epsilon (for
instance denormal-level noise such as `1/2^130`) is classified
non-silent, while the claim requires such a buffer to be silent. -/
theorem claim_C3_counterexample :
    (¬ ∃ ε : ℚ, 0 < ε ∧ ∀ buf : List ℚ,
      (hasNonzeroSample buf = true ↔ ∃ x ∈ buf, ε < |x|)) ∧
    hasNonzeroSample [(1 : ℚ) / 2 ^ 130] = true := by
  constructor
  · rintro ⟨ε, hε, h⟩
    have h1 : hasNonzeroSample [ε] = true := by
      simp [hasNonzeroSample]
      exact ne_of_gt hε
    obtain ⟨x, hx, hgt⟩ := (h [ε]).mp h1
    simp only [List.mem_singleton] at hx
    subst hx
    rw [abs_of_pos hε] at hgt
    exact lt_irrefl _ hgt
  · norm_num [hasNonzeroSample]

/-- C3 amended: the probe classifies a frame as non-silent iff it contains
a sample different from exact zero (so any nonzero value, including
denormal-level noise, counts as audio), and the probe loop reports audible
exactly when some pulled block contains a nonzero sample while every
earlier block was a nonzero-frame, all-zero block whose position had not
reached 99% of the total duration; otherwise it stops silent at a
zero-frame read or at the 99%-of-duration check. -/
theorem claim_C3_silence_probe (blocks : List ProbeBlock) (dur : ℚ) :
    (∀ buf : List ℚ, (hasNonzeroSample buf = true ↔ ∃ x ∈ buf, x ≠ 0)) ∧
    (probeHasAudio blocks dur = true ↔
      ∃ pre b post, blocks = pre ++ b :: post ∧
        (∀ p ∈ pre, p.samplesRead ≠ 0 ∧ hasNonzeroSample p.samples = false ∧
          p.posAfter < dur * (99 / 100)) ∧
        b.samplesRead ≠ 0 ∧ hasNonzeroSample b.samples = true) :=
  ⟨hasNonzeroSample_iff, probeHasAudio_iff blocks dur⟩

end Untracker
